import Mathlib

/-!
Shallow embedding of the xenon2 wasm password-hashing module
(`src/wasm/lib.rs`) and a verification of its natural-language
specification against the code.

The module wraps the RustCrypto `argon2` crate.  The crate itself is a
trusted external collaborator (out of scope per the spec), so:

* its *simple, observable* interface behaviour (parameter validation
  bounds, the PHC digest string format, the default costs, base64
  encoding, salt constraints) is embedded concretely, mirroring the
  crate's documented checks;
* the Argon2 key-derivation function itself and the PHC-string parser
  are kept abstract: the exported operations are parameterised over a
  hash function `f : HashFn` and a parser `parse : Bytes → Option PHC`,
  and theorems state the wrapper's properties for every such library,
  with the library contracts appearing as explicit hypotheses.

Rust `panic!` / `.unwrap()` / `.expect(..)` paths (which route to the
Failure Bridge and never return) are modelled by `Option`: a `none`
result of an exported operation means the call is a fatal failure.
-/

namespace Xenon

/-- Raw bytes crossing the wasm boundary (`*const u8` + length slices). -/
abbrev Bytes := List Nat

/-- The `argon2::Algorithm` enum restricted to the three variants the
module accepts (`src/wasm/lib.rs`, `setup_params` / `verify` matches). -/
inductive Algorithm
  | argon2i
  | argon2d
  | argon2id
deriving DecidableEq

/-- The `argon2::Version` enum: only `0x10` and `0x13` exist. -/
inductive Version
  | v0x10
  | v0x13
deriving DecidableEq

/-- Numeric value of a version as it appears in a digest (`v=16` / `v=19`). -/
def Version.toNat : Version → Nat
  | .v0x10 => 16
  | .v0x13 => 19

/-- Models `argon2::Version::default()`, which is `V0x13`. -/
def Version.defaultVersion : Version := .v0x13

/-- The module's process-wide parameter store entry: mirrors the Rust
struct `AllParams` (`src/wasm/lib.rs` lines 47-54). -/
structure AllParams where
  algorithm : Algorithm
  version : Version
  m_cost : Nat
  t_cost : Nat
  p_cost : Nat
deriving DecidableEq

/-- `argon2::Params::DEFAULT_M_COST` (KiB), from the trusted library. -/
def DEFAULT_M_COST : Nat := 19456
/-- `argon2::Params::DEFAULT_T_COST`, from the trusted library. -/
def DEFAULT_T_COST : Nat := 2
/-- `argon2::Params::DEFAULT_P_COST`, from the trusted library. -/
def DEFAULT_P_COST : Nat := 1
/-- `argon2::Params::MIN_M_COST`, from the trusted library. -/
def MIN_M_COST : Nat := 8
/-- `argon2::Params::MAX_M_COST` (0x0FFFFFFF), from the trusted library. -/
def MAX_M_COST : Nat := 268435455
/-- `argon2::Params::MIN_T_COST`, from the trusted library. -/
def MIN_T_COST : Nat := 1
/-- `argon2::Params::MAX_T_COST` (u32::MAX), from the trusted library. -/
def MAX_T_COST : Nat := 4294967295
/-- `argon2::Params::MIN_P_COST`, from the trusted library. -/
def MIN_P_COST : Nat := 1
/-- `argon2::Params::MAX_P_COST` (0xFFFFFF), from the trusted library. -/
def MAX_P_COST : Nat := 16777215
/-- `argon2::Params::MIN_OUTPUT_LEN` (bytes), from the trusted library. -/
def MIN_OUTPUT_LEN : Nat := 4
/-- `argon2::Params::MAX_OUTPUT_LEN` (bytes), from the trusted library. -/
def MAX_OUTPUT_LEN : Nat := 4294967295
/-- `argon2::Params::DEFAULT_OUTPUT_LEN` (bytes), from the trusted library. -/
def DEFAULT_OUTPUT_LEN : Nat := 32
/-- `argon2::MAX_SECRET_LEN` (bytes), from the trusted library: an
`Argon2` instance rejects secrets longer than `u32::MAX` bytes. -/
def MAX_SECRET_LEN : Nat := 4294967295

/-- The fixed initial parameter store (`static mut PARAMS`,
`src/wasm/lib.rs` lines 56-62). -/
def PARAMS_default : AllParams :=
  ⟨.argon2id, .v0x13, DEFAULT_M_COST, DEFAULT_T_COST, DEFAULT_P_COST⟩

/-- Models `argon2::Params`: the validated cost triple together with the
optional explicit output length. -/
structure ParamsR where
  m_cost : Nat
  t_cost : Nat
  p_cost : Nat
  output_len : Option Nat
deriving DecidableEq

/-- Output-length bound check performed by the trusted library's
parameter builder when an explicit output length is supplied. -/
def outLenOk : Option Nat → Bool
  | none => true
  | some l => decide (MIN_OUTPUT_LEN ≤ l) && decide (l ≤ MAX_OUTPUT_LEN)

/-- The bound checks of `argon2::ParamsBuilder::build` /
`argon2::Params::new`, from the trusted library. -/
def paramsValid (m t p : Nat) (outLen : Option Nat) : Bool :=
  decide (MIN_M_COST ≤ m) && decide (m ≤ MAX_M_COST) &&
  decide (MIN_T_COST ≤ t) && decide (t ≤ MAX_T_COST) &&
  decide (MIN_P_COST ≤ p) && decide (p ≤ MAX_P_COST) &&
  outLenOk outLen

/-- Models `argon2::Params::new(m, t, p, outLen)`: validates the bounds
and stores the values unchanged.  `none` is the library's `Err`. -/
def paramsNew (m t p : Nat) (outLen : Option Nat) : Option ParamsR :=
  if paramsValid m t p outLen then some ⟨m, t, p, outLen⟩ else none

/-- Models the `ParamsBuilder::new().m_cost(m).t_cost(t).p_cost(p).build()`
chain used by `setup_params` (`src/wasm/lib.rs` lines 85-90): no output
length is set, and on success the three normalized costs are read back
via `params.m_cost()` etc. -/
def paramsBuild (m t p : Nat) : Option (Nat × Nat × Nat) :=
  match paramsNew m t p none with
  | none => none
  | some q => some (q.m_cost, q.t_cost, q.p_cost)

/-- The 4-byte algorithm tag match in `setup_params`
(`src/wasm/lib.rs` lines 72-77): `b"i___"`, `b"d___"`, `b"id__"`;
anything else panics. -/
def algFromTag (tag : Bytes) : Option Algorithm :=
  if tag = [105, 95, 95, 95] then some .argon2i
  else if tag = [100, 95, 95, 95] then some .argon2d
  else if tag = [105, 100, 95, 95] then some .argon2id
  else none

/-- The version match in `setup_params` (`src/wasm/lib.rs` lines 79-83):
`0x10`, `0x13`, anything else panics. -/
def versionFromNat (v : Nat) : Option Version :=
  if v = 16 then some .v0x10 else if v = 19 then some .v0x13 else none

/-- The exported `setup_params` (`src/wasm/lib.rs` lines 64-99).
`none` models a fatal failure (panic before the single assignment to
`PARAMS`); `some st` is the value written to `PARAMS` in one step. -/
def setup_params (tag : Bytes) (version m t p : Nat) : Option AllParams :=
  match algFromTag tag with
  | none => none
  | some alg =>
    match versionFromNat version with
    | none => none
    | some ver =>
      match paramsBuild m t p with
      | none => none
      | some (m1, t1, p1) => some ⟨alg, ver, m1, t1, p1⟩

/-- The parameter store after a `setup_params` call that started in
state `st`: on a fatal failure the assignment to `PARAMS` is never
reached, so the old configuration stays in effect. -/
def setupStore (st : AllParams) (tag : Bytes) (version m t p : Nat) : AllParams :=
  match setup_params tag version m t p with
  | some st1 => st1
  | none => st

/-- The sextet-to-ASCII table of the standard base64 alphabet used by
`base64::engine::general_purpose::STANDARD_NO_PAD`. -/
def b64Char (n : Nat) : Nat :=
  if n < 26 then 65 + n
  else if n < 52 then 97 + (n - 26)
  else if n < 62 then 48 + (n - 52)
  else if n = 62 then 43
  else 47

/-- Unpadded standard base64 encoding of a byte sequence, as performed
by `STANDARD_NO_PAD.encode` in `hash` (`src/wasm/lib.rs` line 121). -/
def b64EncodeNoPad : Bytes → Bytes
  | a :: b :: c :: rest =>
      b64Char (a / 4) :: b64Char ((a % 4) * 16 + b / 16) ::
      b64Char ((b % 16) * 4 + c / 64) :: b64Char (c % 64) :: b64EncodeNoPad rest
  | [a, b] => [b64Char (a / 4), b64Char ((a % 4) * 16 + b / 16), b64Char ((b % 16) * 4)]
  | [a] => [b64Char (a / 4), b64Char ((a % 4) * 16)]
  | [] => []

/-- Character class accepted inside a PHC-string value by the trusted
`password-hash` crate (base64 alphabet plus `.` and `-`). -/
def isB64Char (c : Nat) : Bool :=
  (decide (65 ≤ c) && decide (c ≤ 90)) || (decide (97 ≤ c) && decide (c ≤ 122)) ||
  (decide (48 ≤ c) && decide (c ≤ 57)) ||
  decide (c = 43) || decide (c = 47) || decide (c = 46) || decide (c = 45)

/-- Models `password_hash::Salt::from_b64` (used at
`src/wasm/lib.rs` line 122): the salt string must be 4 to 64 characters
of the PHC value alphabet; on success the salt is the string itself. -/
def saltFromB64 (s : Bytes) : Option Bytes :=
  if decide (4 ≤ s.length) && decide (s.length ≤ 64) && s.all isB64Char then some s
  else none

/-- Decimal digit expansion (ASCII), fuel-indexed for kernel reduction. -/
def natToDecAux : Nat → Nat → Bytes
  | 0, _ => []
  | fuel + 1, n => if n < 10 then [48 + n] else natToDecAux fuel (n / 10) ++ [48 + n % 10]

/-- ASCII decimal rendering of a number, as the PHC serializer writes
versions and costs (e.g. `19456` becomes `"19456"`). -/
def natToDec (n : Nat) : Bytes := natToDecAux (n + 1) n

/-- The `"argon2i"` identifier bytes. -/
def identArgon2i : Bytes := [97, 114, 103, 111, 110, 50, 105]
/-- The `"argon2d"` identifier bytes. -/
def identArgon2d : Bytes := [97, 114, 103, 111, 110, 50, 100]
/-- The `"argon2id"` identifier bytes. -/
def identArgon2id : Bytes := [97, 114, 103, 111, 110, 50, 105, 100]

/-- PHC identifier of an algorithm variant (`hash.algorithm.as_str()`). -/
def Algorithm.ident : Algorithm → Bytes
  | .argon2i => identArgon2i
  | .argon2d => identArgon2d
  | .argon2id => identArgon2id

/-- The self-describing digest text produced by the trusted library's
PHC serializer (`PasswordHash` Display), byte for byte:
`$<ident>$v=<version>$m=<m>,t=<t>,p=<p>$<salt>$<hash>`. -/
def phcFormat (alg : Algorithm) (ver : Version) (m t p : Nat) (saltStr hashStr : Bytes) : Bytes :=
  [36] ++ Algorithm.ident alg ++
  [36, 118, 61] ++ natToDec (Version.toNat ver) ++
  [36, 109, 61] ++ natToDec m ++ [44, 116, 61] ++ natToDec t ++ [44, 112, 61] ++ natToDec p ++
  [36] ++ saltStr ++ [36] ++ hashStr

/-- The secret-length check of `argon2::Argon2::new_with_secret`, whose
`Err` the wrapper unwraps fatally; with no secret (`Argon2::new`)
construction is infallible. -/
def secretOk : Option Bytes → Bool
  | none => true
  | some s => decide (s.length ≤ MAX_SECRET_LEN)

/-- The abstract Argon2 key-derivation function of the trusted library:
algorithm, version, m/t/p costs, password, salt string, optional
secret, requested output length; `none` models an internal library
error (fatal at a `hash` call site, a mismatch inside verification). -/
abbrev HashFn :=
  Algorithm → Version → Nat → Nat → Nat → Bytes → Bytes → Option Bytes → Nat → Option Bytes

/-- Models `PasswordHash::generate(hasher, password, salt)` followed by
`to_string()` (`src/wasm/lib.rs` lines 134-135): derives the key with
the effective output length (the explicit one, or the library default)
and serializes the self-describing digest text. -/
def generate (f : HashFn) (alg : Algorithm) (ver : Version) (q : ParamsR)
    (password saltStr : Bytes) (secret : Option Bytes) : Option Bytes :=
  match f alg ver q.m_cost q.t_cost q.p_cost password saltStr secret
      (q.output_len.getD DEFAULT_OUTPUT_LEN) with
  | none => none
  | some out => some (phcFormat alg ver q.m_cost q.t_cost q.p_cost saltStr (b64EncodeNoPad out))

/-- The parameter construction inside `hash`
(`src/wasm/lib.rs` line 126): `Params::new(m_cost, t_cost, p_cost, None)`
on the values read from the store — no output length is passed. -/
def hashParams (st : AllParams) : Option ParamsR :=
  paramsNew st.m_cost st.t_cost st.p_cost none

/-- The digest text computed by the exported `hash`
(`src/wasm/lib.rs` lines 102-135), up to the point where the digest
string exists: salt encoding and validation, store read, unchecked
parameter construction, hasher selection by secret presence, digest
generation.  `none` is a fatal failure. -/
def hashDigestString (f : HashFn) (st : AllParams) (password saltRaw : Bytes)
    (secret : Option Bytes) : Option Bytes :=
  match saltFromB64 (b64EncodeNoPad saltRaw) with
  | none => none
  | some salt =>
    match hashParams st with
    | none => none
    | some q =>
      if secretOk secret then generate f st.algorithm st.version q password salt secret
      else none

/-- The exported `hash` (`src/wasm/lib.rs` lines 102-146).  On success
it returns the observable result: the contents of the newly allocated
buffer written through `output_ptr` (the digest bytes with a trailing
`0` pushed, lines 137-145) and the allocation size passed to `alloc`. -/
def hash (f : HashFn) (st : AllParams) (password saltRaw : Bytes)
    (secret : Option Bytes) : Option (Bytes × Nat) :=
  match hashDigestString f st password saltRaw secret with
  | none => none
  | some d => some (d ++ [0], (d ++ [0]).length)

/-- A parsed PHC digest as the trusted `password-hash` crate returns it
from `PasswordHash::new`: algorithm identifier, optional version,
resolved m/t/p cost fields (the crate substitutes its defaults for
absent fields), optional salt string and optional decoded hash output. -/
structure PHC where
  alg : Bytes
  version : Option Nat
  m_cost : Nat
  t_cost : Nat
  p_cost : Nat
  salt : Option Bytes
  hash : Option Bytes
deriving DecidableEq

/-- Models `argon2::Params::try_from(&PasswordHash)` (used at
`src/wasm/lib.rs` line 172): rebuilds the cost parameters from the
digest, taking the output length from the embedded hash output. -/
def paramsTryFrom (h : PHC) : Option ParamsR :=
  paramsNew h.m_cost h.t_cost h.p_cost (h.hash.map List.length)

/-- The algorithm-identifier match in `verify`
(`src/wasm/lib.rs` lines 173-178). -/
def algFromIdent (s : Bytes) : Option Algorithm :=
  if s = identArgon2i then some .argon2i
  else if s = identArgon2d then some .argon2d
  else if s = identArgon2id then some .argon2id
  else none

/-- The version match in `verify` (`src/wasm/lib.rs` lines 179-184):
`Some(0x10)`, `Some(0x13)`, absent version defaults, anything else
panics. -/
def versionDecode : Option Nat → Option Version
  | none => some Version.defaultVersion
  | some v => versionFromNat v

/-- Models `hasher.verify_password(password, &hash)` of the trusted
library (`src/wasm/lib.rs` line 192): with both salt and hash output
present it re-derives the key using the parameters, algorithm and
version embedded in the digest (which, on the wrapper's path, are
exactly the validated values `alg`/`ver`) and compares outputs; any
internal error or absent field is a mismatch, never a fatal failure. -/
def verifyPassword (f : HashFn) (alg : Algorithm) (ver : Version)
    (secret : Option Bytes) (password : Bytes) (h : PHC) : Bool :=
  match h.salt, h.hash with
  | some salt, some expected =>
    (match paramsTryFrom h with
     | none => false
     | some q =>
       match f alg ver q.m_cost q.t_cost q.p_cost password salt secret
           (q.output_len.getD DEFAULT_OUTPUT_LEN) with
       | none => false
       | some out => decide (out = expected))
  | _, _ => false

/-- A UTF-8 continuation byte: `0x80..=0xBF`. -/
def isUtf8Cont (c : Nat) : Bool := 128 ≤ c && c ≤ 191

/-- UTF-8 validity of a byte sequence, fuel-indexed for kernel
reduction; the table is the one enforced by `core::str::from_utf8`
(no overlong forms, no surrogates, max U+10FFFF). -/
def utf8ValidAux : Nat → Bytes → Bool
  | _, [] => true
  | 0, _ :: _ => false
  | fuel + 1, b :: rest =>
    if b ≤ 127 then utf8ValidAux fuel rest
    else if 194 ≤ b && b ≤ 223 then
      match rest with
      | c1 :: r => isUtf8Cont c1 && utf8ValidAux fuel r
      | [] => false
    else if b = 224 then
      match rest with
      | c1 :: c2 :: r => (160 ≤ c1 && c1 ≤ 191) && isUtf8Cont c2 && utf8ValidAux fuel r
      | _ => false
    else if (225 ≤ b && b ≤ 236) || b = 238 || b = 239 then
      match rest with
      | c1 :: c2 :: r => isUtf8Cont c1 && isUtf8Cont c2 && utf8ValidAux fuel r
      | _ => false
    else if b = 237 then
      match rest with
      | c1 :: c2 :: r => (128 ≤ c1 && c1 ≤ 159) && isUtf8Cont c2 && utf8ValidAux fuel r
      | _ => false
    else if b = 240 then
      match rest with
      | c1 :: c2 :: c3 :: r =>
          (144 ≤ c1 && c1 ≤ 191) && isUtf8Cont c2 && isUtf8Cont c3 && utf8ValidAux fuel r
      | _ => false
    else if 241 ≤ b && b ≤ 243 then
      match rest with
      | c1 :: c2 :: c3 :: r =>
          isUtf8Cont c1 && isUtf8Cont c2 && isUtf8Cont c3 && utf8ValidAux fuel r
      | _ => false
    else if b = 244 then
      match rest with
      | c1 :: c2 :: c3 :: r =>
          (128 ≤ c1 && c1 ≤ 143) && isUtf8Cont c2 && isUtf8Cont c3 && utf8ValidAux fuel r
      | _ => false
    else false

/-- Models the `core::str::from_utf8` check at `src/wasm/lib.rs`
line 162. -/
def utf8Valid (l : Bytes) : Bool := utf8ValidAux l.length l

/-- The exported `verify` (`src/wasm/lib.rs` lines 149-195),
parameterised over the trusted library's PHC parser and hash function.
It is handed the parameter store `st` (the global `PARAMS` is in scope)
but the body never consults it.  `none` models a fatal failure;
`some b` models a normal return that wrote `b` into `*matches`. -/
def verify (parse : Bytes → Option PHC) (f : HashFn) (st : AllParams)
    (digest password : Bytes) (secret : Option Bytes) : Option Nat :=
  if utf8Valid digest then
    match parse digest with
    | none => none
    | some h =>
      match paramsTryFrom h with
      | none => none
      | some _q =>
        match algFromIdent h.alg with
        | none => none
        | some alg =>
          match versionDecode h.version with
          | none => none
          | some ver =>
            if secretOk secret then
              some (if verifyPassword f alg ver secret password h then 1 else 0)
            else none
  else none

/-- A Rust `String` as the panic handler observes it: the byte content
together with the heap capacity of the backing `Vec<u8>`. -/
structure RustString where
  data : Bytes
  cap : Nat
deriving DecidableEq

/-- Models one `write_str` into a growing `String`, following Rust's
amortized `RawVec` growth: if the needed length exceeds the capacity,
the new capacity is `max (2*cap) (max needed 8)` (8 is the minimum
non-zero capacity for 1-byte elements). -/
def pushStr (s : RustString) (frag : Bytes) : RustString :=
  ⟨s.data ++ frag,
    if s.data.length + frag.length ≤ s.cap then s.cap
    else max (2 * s.cap) (max (s.data.length + frag.length) 8)⟩

/-- Models `alloc::format!("{info}")`: the formatter writes the panic
message fragment by fragment into an initially empty `String` (the
format string has no literal pieces, so the crate's estimated initial
capacity is 0). -/
def formatMsg (frags : List Bytes) : RustString := frags.foldl pushStr ⟨[], 0⟩

/-- One invocation of the host callback `panic(ptr, len)` as observed
across the boundary: the bytes behind the pointer and the length
argument. -/
structure HostPanicCall where
  message : Bytes
  len : Nat
deriving DecidableEq

/-- The panic handler (`src/wasm/lib.rs` lines 16-25): formats the
panic info, calls the host `panic` callback once passing
`msg.as_ptr()` and `msg.capacity()` — the capacity, not the byte
length — and then enters `loop {}`.  The result is the list of host
callback invocations plus a flag recording that the handler never
returns. -/
def panic_handler (frags : List Bytes) : List HostPanicCall × Bool :=
  ([⟨(formatMsg frags).data, (formatMsg frags).cap⟩], true)

/-- The fragment sequence of a representative panic message,
`panicked at src/wasm/lib.rs:77:14:\nInvalid algorithm` (52 bytes),
written in the pieces the core formatter emits: the literal prefix,
the location's file, `:`, line, `:`, column, the `:\n` separator and
the panic message itself.  Only the fragment lengths matter for the
capacity computation. -/
def panicFragsExample : List Bytes :=
  [List.replicate 12 97, List.replicate 15 97, [58], [55, 55], [58], [49, 52], [58, 10],
   List.replicate 17 97]

/-- C8 (code bug evidence): on this reachable panic message the handler
makes exactly one host callback and halts, but the length it reports is
the String's capacity (54), not the message's byte length (52): the
host callback receives `msg.capacity()`, not the length of the message
in bytes. -/
theorem panic_handler_reports_capacity :
    (panic_handler panicFragsExample).1.length = 1 ∧
      (panic_handler panicFragsExample).2 = true ∧
      ∀ c ∈ (panic_handler panicFragsExample).1,
        c.message.length = 52 ∧ c.len = 54 ∧ c.len ≠ c.message.length := by
  decide

/-- The parameter-store states reachable at run time: the fixed initial
value of `PARAMS` and everything a successful `setup_params` writes. -/
inductive ReachableStore : AllParams → Prop
  | init : ReachableStore PARAMS_default
  | step (st : AllParams) (tag : Bytes) (version m t p : Nat) (st1 : AllParams) :
      ReachableStore st → setup_params tag version m t p = some st1 → ReachableStore st1

theorem paramsNew_eq {m t p : Nat} {outLen : Option Nat} {q : ParamsR}
    (h : paramsNew m t p outLen = some q) :
    paramsValid m t p outLen = true ∧ q = ⟨m, t, p, outLen⟩ := by
  unfold paramsNew at h
  split at h
  · cases h
    exact ⟨by assumption, rfl⟩
  · exact Option.noConfusion h

theorem paramsBuild_eq {m t p a b c : Nat} (h : paramsBuild m t p = some (a, b, c)) :
    paramsValid m t p none = true ∧ a = m ∧ b = t ∧ c = p := by
  unfold paramsBuild at h
  cases hq : paramsNew m t p none with
  | none =>
      rw [hq] at h
      exact Option.noConfusion h
  | some q =>
      rw [hq] at h
      obtain ⟨hv, hq2⟩ := paramsNew_eq hq
      subst hq2
      cases h
      exact ⟨hv, rfl, rfl, rfl⟩

theorem paramsValid_build {m t p : Nat} (hv : paramsValid m t p none = true) :
    paramsBuild m t p = some (m, t, p) := by
  simp [paramsBuild, paramsNew, hv]

/-- C4: configure (`setup_params`) is a fatal failure whenever the
algorithm tag, the version, or the cost triple is rejected, and on
every such failure the parameter store keeps its old value. -/
theorem setup_params_rejects_invalid (st : AllParams) (tag : Bytes) (version m t p : Nat)
    (h : algFromTag tag = none ∨ versionFromNat version = none ∨ paramsBuild m t p = none) :
    setup_params tag version m t p = none ∧ setupStore st tag version m t p = st := by
  have hn : setup_params tag version m t p = none := by
    unfold setup_params
    rcases h with h | h | h
    · rw [h]
    · cases halg : algFromTag tag
      · rfl
      · rw [h]
    · cases halg : algFromTag tag
      · rfl
      · cases hver : versionFromNat version
        · rfl
        · rw [h]
  refine ⟨hn, ?_⟩
  unfold setupStore
  rw [hn]

theorem setup_params_rejects_invalid_witness :
    setup_params [120, 120, 95, 95] 19 19456 2 1 = none ∧
      setupStore PARAMS_default [120, 120, 95, 95] 19 19456 2 1 = PARAMS_default :=
  setup_params_rejects_invalid PARAMS_default [120, 120, 95, 95] 19 19456 2 1
    (Or.inl (by decide))

/-- C5: every successful configure call replaces the whole store in one
step with the algorithm mapped from the 4-byte tag, the version mapped
from `0x10`/`0x13`, and the cost triple as returned (normalized) by the
trusted library's parameter builder; and the tag/version mappings are
exactly `"i___"`/`"d___"`/`"id__"` and `16`/`19`. -/
theorem setup_params_success_replaces (tag : Bytes) (version m t p : Nat)
    (alg : Algorithm) (ver : Version) (m1 t1 p1 : Nat)
    (halg : algFromTag tag = some alg) (hver : versionFromNat version = some ver)
    (hbuild : paramsBuild m t p = some (m1, t1, p1)) :
    setup_params tag version m t p = some ⟨alg, ver, m1, t1, p1⟩ ∧
      algFromTag [105, 95, 95, 95] = some Algorithm.argon2i ∧
      algFromTag [100, 95, 95, 95] = some Algorithm.argon2d ∧
      algFromTag [105, 100, 95, 95] = some Algorithm.argon2id ∧
      versionFromNat 16 = some Version.v0x10 ∧
      versionFromNat 19 = some Version.v0x13 := by
  refine ⟨?_, by decide, by decide, by decide, by decide, by decide⟩
  unfold setup_params
  rw [halg, hver, hbuild]

theorem setup_params_success_replaces_witness :
    setup_params [105, 95, 95, 95] 16 8 1 1 =
        some ⟨Algorithm.argon2i, Version.v0x10, 8, 1, 1⟩ ∧
      algFromTag [105, 95, 95, 95] = some Algorithm.argon2i ∧
      algFromTag [100, 95, 95, 95] = some Algorithm.argon2d ∧
      algFromTag [105, 100, 95, 95] = some Algorithm.argon2id ∧
      versionFromNat 16 = some Version.v0x10 ∧
      versionFromNat 19 = some Version.v0x13 :=
  setup_params_success_replaces [105, 95, 95, 95] 16 8 1 1
    Algorithm.argon2i Version.v0x10 8 1 1 (by decide) (by decide) (by decide)

/-- C9: configure is idempotent — after a successful call, repeating it
with identical arguments leaves the store in the same state as the
single call (the operation never reads the store it replaces). -/
theorem setup_params_idempotent (st : AllParams) (tag : Bytes) (version m t p : Nat)
    (st1 : AllParams) (h : setup_params tag version m t p = some st1) :
    setupStore (setupStore st tag version m t p) tag version m t p =
      setupStore st tag version m t p := by
  unfold setupStore
  rw [h]

theorem setup_params_idempotent_witness :
    setupStore (setupStore PARAMS_default [105, 100, 95, 95] 19 64 3 2)
        [105, 100, 95, 95] 19 64 3 2 =
      setupStore PARAMS_default [105, 100, 95, 95] 19 64 3 2 :=
  setup_params_idempotent PARAMS_default [105, 100, 95, 95] 19 64 3 2
    ⟨Algorithm.argon2id, Version.v0x13, 64, 3, 2⟩ (by decide)

/-- C10: invariant of every reachable parameter-store state — the
algorithm is one of the three variants, the version is `0x10` or
`0x13`, the stored cost triple is accepted unchanged by the trusted
library's parameter builder, and hence the unchecked
`Params::new(..).unwrap()` inside `hash` cannot fail. -/
theorem reachable_store_invariant (st : AllParams) (h : ReachableStore st) :
    (st.algorithm = Algorithm.argon2i ∨ st.algorithm = Algorithm.argon2d ∨
        st.algorithm = Algorithm.argon2id) ∧
      (st.version = Version.v0x10 ∨ st.version = Version.v0x13) ∧
      paramsBuild st.m_cost st.t_cost st.p_cost = some (st.m_cost, st.t_cost, st.p_cost) ∧
      hashParams st ≠ none := by
  induction h with
  | init => exact ⟨Or.inr (Or.inr rfl), Or.inr rfl, by decide, by decide⟩
  | step st2 tag version m t p st1 _hr hs _ih =>
    unfold setup_params at hs
    cases halg : algFromTag tag <;> rw [halg] at hs
    · exact absurd hs (by simp)
    case some alg =>
    cases hver : versionFromNat version <;> rw [hver] at hs
    · exact absurd hs (by simp)
    case some ver =>
    cases hbuild : paramsBuild m t p <;> rw [hbuild] at hs
    · exact absurd hs (by simp)
    case some trip =>
    obtain ⟨m1, t1, p1⟩ := trip
    have hst : st1 = ⟨alg, ver, m1, t1, p1⟩ := by
      cases hs
      rfl
    obtain ⟨hv, ha, hb, hc⟩ := paramsBuild_eq hbuild
    subst hst
    subst ha
    subst hb
    subst hc
    refine ⟨?_, ?_, paramsValid_build hv, ?_⟩
    · cases alg
      · exact Or.inl rfl
      · exact Or.inr (Or.inl rfl)
      · exact Or.inr (Or.inr rfl)
    · cases ver
      · exact Or.inl rfl
      · exact Or.inr rfl
    · simp [hashParams, paramsNew, hv]

theorem b64Char_lt (n : Nat) : b64Char n < 128 := by
  unfold b64Char
  split_ifs <;> omega

theorem isB64Char_b64Char (n : Nat) : isB64Char (b64Char n) = true := by
  unfold b64Char
  split_ifs <;> simp [isB64Char] <;> omega

theorem isB64Char_lt {c : Nat} (h : isB64Char c = true) : c < 128 := by
  simp [isB64Char] at h
  omega

theorem b64Encode_all : ∀ (l : Bytes), ∀ c ∈ b64EncodeNoPad l, isB64Char c = true
  | [] => by simp [b64EncodeNoPad]
  | [a] => by
      intro c hc
      simp only [b64EncodeNoPad, List.mem_cons, List.not_mem_nil, or_false] at hc
      rcases hc with rfl | rfl <;> exact isB64Char_b64Char _
  | [a, b] => by
      intro c hc
      simp only [b64EncodeNoPad, List.mem_cons, List.not_mem_nil, or_false] at hc
      rcases hc with rfl | rfl | rfl <;> exact isB64Char_b64Char _
  | a :: b :: c :: rest => by
      intro x hx
      simp only [b64EncodeNoPad, List.mem_cons] at hx
      rcases hx with rfl | rfl | rfl | rfl | hx
      · exact isB64Char_b64Char _
      · exact isB64Char_b64Char _
      · exact isB64Char_b64Char _
      · exact isB64Char_b64Char _
      · exact b64Encode_all rest x hx

theorem b64Encode_ascii (l : Bytes) : ∀ c ∈ b64EncodeNoPad l, c < 128 :=
  fun c hc => isB64Char_lt (b64Encode_all l c hc)

theorem natToDecAux_lt : ∀ (fuel n : Nat), ∀ c ∈ natToDecAux fuel n, c < 128
  | 0, n => by simp [natToDecAux]
  | fuel + 1, n => by
      intro c hc
      simp only [natToDecAux] at hc
      split at hc
      · simp only [List.mem_cons, List.not_mem_nil, or_false] at hc
        omega
      · rcases List.mem_append.mp hc with h | h
        · exact natToDecAux_lt fuel (n / 10) c h
        · simp only [List.mem_cons, List.not_mem_nil, or_false] at h
          omega

theorem natToDec_lt (n : Nat) : ∀ c ∈ natToDec n, c < 128 :=
  natToDecAux_lt (n + 1) n

theorem ident_ascii (alg : Algorithm) : ∀ c ∈ Algorithm.ident alg, c < 128 := by
  cases alg <;> decide

theorem forall_mem_append2 {P : Nat → Prop} {l1 l2 : Bytes}
    (h1 : ∀ c ∈ l1, P c) (h2 : ∀ c ∈ l2, P c) : ∀ c ∈ l1 ++ l2, P c :=
  fun c hc => (List.mem_append.mp hc).elim (h1 c) (h2 c)

theorem phcFormat_ascii (alg : Algorithm) (ver : Version) (m t p : Nat)
    (saltStr hashStr : Bytes) (hsalt : ∀ c ∈ saltStr, c < 128)
    (hhash : ∀ c ∈ hashStr, c < 128) :
    ∀ c ∈ phcFormat alg ver m t p saltStr hashStr, c < 128 := by
  unfold phcFormat
  exact forall_mem_append2 (forall_mem_append2 (forall_mem_append2 (forall_mem_append2
    (forall_mem_append2 (forall_mem_append2 (forall_mem_append2 (forall_mem_append2
      (forall_mem_append2 (forall_mem_append2 (forall_mem_append2 (forall_mem_append2
        (forall_mem_append2 (by decide) (ident_ascii alg)) (by decide)) (natToDec_lt _))
        (by decide)) (natToDec_lt _)) (by decide)) (natToDec_lt _)) (by decide))
      (natToDec_lt _)) (by decide)) hsalt) (by decide)) hhash

theorem utf8ValidAux_ascii : ∀ (fuel : Nat) (l : Bytes), l.length ≤ fuel →
    (∀ c ∈ l, c < 128) → utf8ValidAux fuel l = true
  | fuel, [] => by cases fuel <;> intro _ _ <;> rfl
  | 0, b :: rest => by
      intro h
      simp at h
  | fuel + 1, b :: rest => by
      intro hlen hall
      have hb : b < 128 := hall b (List.mem_cons_self b rest)
      simp only [utf8ValidAux]
      rw [if_pos (by omega : b ≤ 127)]
      exact utf8ValidAux_ascii fuel rest (by simp at hlen; omega)
        (fun c hc => hall c (List.mem_cons_of_mem _ hc))

theorem utf8Valid_ascii (l : Bytes) (h : ∀ c ∈ l, c < 128) : utf8Valid l = true :=
  utf8ValidAux_ascii l.length l le_rfl h

theorem paramsNew_some_out {m t p : Nat} {q : ParamsR} (h : paramsNew m t p none = some q) :
    paramsNew m t p (some DEFAULT_OUTPUT_LEN) = some ⟨m, t, p, some DEFAULT_OUTPUT_LEN⟩ := by
  obtain ⟨hv, _⟩ := paramsNew_eq h
  have hv2 : paramsValid m t p (some DEFAULT_OUTPUT_LEN) = true := by
    simp only [paramsValid, Bool.and_eq_true] at hv ⊢
    exact ⟨hv.1, by decide⟩
  simp [paramsNew, hv2]

theorem algFromIdent_ident (alg : Algorithm) :
    algFromIdent (Algorithm.ident alg) = some alg := by
  cases alg <;> decide

theorem versionDecode_toNat (ver : Version) :
    versionDecode (some (Version.toNat ver)) = some ver := by
  cases ver <;> decide

/-- C1: for every valid password, every salt accepted by the trusted
library's salt constraints, every supported parameter-store
configuration and every secret the library accepts, verifying the
digest produced by `hash` with the same password and secret yields `1`.
The trusted library enters as hypotheses: the key-derivation function
`f` honours the requested output length at this input, and the PHC
parser returns exactly the components the serializer embedded. -/
theorem verify_hash_roundtrip
    (parse : Bytes → Option PHC) (f : HashFn) (st : AllParams)
    (password saltRaw : Bytes) (secret : Option Bytes) (out : Bytes)
    (hsalt : saltFromB64 (b64EncodeNoPad saltRaw) = some (b64EncodeNoPad saltRaw))
    (hparams : hashParams st = some ⟨st.m_cost, st.t_cost, st.p_cost, none⟩)
    (hsec : secretOk secret = true)
    (hf : f st.algorithm st.version st.m_cost st.t_cost st.p_cost password
        (b64EncodeNoPad saltRaw) secret DEFAULT_OUTPUT_LEN = some out)
    (hout : out.length = DEFAULT_OUTPUT_LEN)
    (hparse : parse (phcFormat st.algorithm st.version st.m_cost st.t_cost st.p_cost
          (b64EncodeNoPad saltRaw) (b64EncodeNoPad out)) =
        some ⟨Algorithm.ident st.algorithm, some (Version.toNat st.version),
          st.m_cost, st.t_cost, st.p_cost, some (b64EncodeNoPad saltRaw), some out⟩) :
    hashDigestString f st password saltRaw secret =
        some (phcFormat st.algorithm st.version st.m_cost st.t_cost st.p_cost
          (b64EncodeNoPad saltRaw) (b64EncodeNoPad out)) ∧
      verify parse f st (phcFormat st.algorithm st.version st.m_cost st.t_cost st.p_cost
          (b64EncodeNoPad saltRaw) (b64EncodeNoPad out)) password secret = some 1 := by
  have hp1 : paramsNew st.m_cost st.t_cost st.p_cost none =
      some ⟨st.m_cost, st.t_cost, st.p_cost, none⟩ := hparams
  constructor
  · unfold hashDigestString
    rw [hsalt]
    dsimp only
    rw [hparams]
    dsimp only
    rw [if_pos hsec]
    unfold generate
    dsimp only
    rw [Option.getD_none, hf]
  · have hD : utf8Valid (phcFormat st.algorithm st.version st.m_cost st.t_cost st.p_cost
        (b64EncodeNoPad saltRaw) (b64EncodeNoPad out)) = true :=
      utf8Valid_ascii _ (phcFormat_ascii _ _ _ _ _ _ _ (b64Encode_ascii _) (b64Encode_ascii _))
    have hptf : paramsTryFrom ⟨Algorithm.ident st.algorithm, some (Version.toNat st.version),
        st.m_cost, st.t_cost, st.p_cost, some (b64EncodeNoPad saltRaw), some out⟩ =
        some ⟨st.m_cost, st.t_cost, st.p_cost, some DEFAULT_OUTPUT_LEN⟩ := by
      unfold paramsTryFrom
      dsimp only
      rw [show (some out).map List.length = some DEFAULT_OUTPUT_LEN from by rw [Option.map_some', hout]]
      exact paramsNew_some_out hp1
    have hvp : verifyPassword f st.algorithm st.version secret password
        ⟨Algorithm.ident st.algorithm, some (Version.toNat st.version),
          st.m_cost, st.t_cost, st.p_cost, some (b64EncodeNoPad saltRaw), some out⟩ = true := by
      unfold verifyPassword
      dsimp only
      rw [hptf]
      dsimp only
      rw [Option.getD_some, hf]
      simp
    unfold verify
    rw [hD]
    rw [if_pos rfl]
    rw [hparse]
    dsimp only
    rw [hptf]
    dsimp only
    rw [algFromIdent_ident]
    dsimp only
    rw [versionDecode_toNat]
    dsimp only
    rw [if_pos hsec, hvp]
    rfl

/-- Concrete key-derivation instance for the C1 witness. -/
def rtF : HashFn := fun _ _ _ _ _ _ _ _ n => some (List.replicate n 7)

/-- Concrete 16-byte salt for the C1 witness. -/
def rtSalt : Bytes := List.replicate 16 65

/-- The derived key the C1 witness's hash function produces. -/
def rtOut : Bytes := List.replicate DEFAULT_OUTPUT_LEN 7

/-- The digest text the C1 witness's hash call produces. -/
def rtDigest : Bytes :=
  phcFormat PARAMS_default.algorithm PARAMS_default.version PARAMS_default.m_cost
    PARAMS_default.t_cost PARAMS_default.p_cost (b64EncodeNoPad rtSalt) (b64EncodeNoPad rtOut)

/-- The parsed form of `rtDigest`, as the PHC parser returns it. -/
def rtPHC : PHC :=
  ⟨Algorithm.ident PARAMS_default.algorithm, some (Version.toNat PARAMS_default.version),
    PARAMS_default.m_cost, PARAMS_default.t_cost, PARAMS_default.p_cost,
    some (b64EncodeNoPad rtSalt), some rtOut⟩

/-- Concrete PHC parser instance for the C1 witness. -/
def rtParse : Bytes → Option PHC := fun b => if b = rtDigest then some rtPHC else none

theorem verify_hash_roundtrip_witness :
    hashDigestString rtF PARAMS_default [112, 119] rtSalt none = some rtDigest ∧
      verify rtParse rtF PARAMS_default rtDigest [112, 119] none = some 1 :=
  verify_hash_roundtrip rtParse rtF PARAMS_default [112, 119] rtSalt none rtOut
    (by decide) (by decide) rfl rfl (by decide) (by decide)

/-- C3: for machine-representable secrets, `verify` is a fatal failure
exactly when the digest is not valid UTF-8, the PHC parser rejects it,
the library rejects its embedded cost parameters, it names an unknown
algorithm, or it embeds an unsupported version; and a digest passing
all those checks whose comparison fails is not an error — `verify`
returns normally and writes `0`. -/
theorem verify_fatal_iff (parse : Bytes → Option PHC) (f : HashFn) (st : AllParams)
    (digest password : Bytes) (secret : Option Bytes)
    (hsec : secretOk secret = true) :
    (verify parse f st digest password secret = none ↔
      utf8Valid digest = false ∨ parse digest = none ∨
        ∃ h, parse digest = some h ∧
          (paramsTryFrom h = none ∨ algFromIdent h.alg = none ∨
            versionDecode h.version = none)) ∧
    ∀ h alg ver, utf8Valid digest = true → parse digest = some h →
        paramsTryFrom h ≠ none → algFromIdent h.alg = some alg →
        versionDecode h.version = some ver →
        verifyPassword f alg ver secret password h = false →
        verify parse f st digest password secret = some 0 := by
  unfold verify
  cases hu : utf8Valid digest with
  | false =>
      simp only [Bool.false_eq_true, if_false]
      constructor
      · constructor
        · intro _
          exact Or.inl trivial
        · intro _
          trivial
      · intro h alg ver hutf
        exact absurd hutf (by simp)
  | true =>
      rw [if_pos rfl]
      cases hp : parse digest with
      | none =>
          dsimp only
          constructor
          · simp
          · intro h alg ver _ hph
            exact fun _ _ _ _ => absurd hph (by simp)
      | some h0 =>
          dsimp only
          cases hptf : paramsTryFrom h0 with
          | none =>
              dsimp only
              constructor
              · simp [hptf]
              · intro h alg ver _ hph hptf2 _ _ _
                injection hph with he
                subst he
                exact absurd hptf hptf2
          | some q =>
              dsimp only
              cases halg : algFromIdent h0.alg with
              | none =>
                  dsimp only
                  constructor
                  · simp [hptf, halg]
                  · intro h alg ver _ hph _ hvalg _ _
                    injection hph with he
                    subst he
                    rw [halg] at hvalg
                    exact Option.noConfusion hvalg
              | some alg0 =>
                  dsimp only
                  cases hver : versionDecode h0.version with
                  | none =>
                      dsimp only
                      constructor
                      · simp [hptf, halg, hver]
                      · intro h alg ver _ hph _ _ hvver _
                        injection hph with he
                        subst he
                        rw [hver] at hvver
                        exact Option.noConfusion hvver
                  | some ver0 =>
                      dsimp only
                      rw [if_pos hsec]
                      constructor
                      · simp [hptf, halg, hver]
                      · intro h alg ver _ hph _ hvalg hvver hvp
                        injection hph with he
                        subst he
                        rw [halg] at hvalg
                        injection hvalg with he2
                        subst he2
                        rw [hver] at hvver
                        injection hvver with he3
                        subst he3
                        rw [hvp]
                        rfl

theorem verify_fatal_iff_witness :
    verify (fun _ => none) (fun _ _ _ _ _ _ _ _ _ => none) PARAMS_default
        [255] [112] none = none :=
  ((verify_fatal_iff (fun _ => none) (fun _ _ _ _ _ _ _ _ _ => none) PARAMS_default
      [255] [112] none rfl).1).mpr (Or.inl (by decide))

/-- C2: the match value computed by `verify` depends only on its
inputs, never on the process-wide parameter store: for any two store
states the result is identical, because the body of `verify` never
consults `PARAMS` (algorithm, version and costs come from the digest). -/
theorem verify_independent_of_store (parse : Bytes → Option PHC) (f : HashFn)
    (st1 st2 : AllParams) (digest password : Bytes) (secret : Option Bytes) :
    verify parse f st1 digest password secret = verify parse f st2 digest password secret := rfl

/-- C6: on every successful `hash` call the buffer written through
`output_ptr` holds exactly the digest string's bytes followed by one
trailing `0`, and the allocation size passed to `alloc` is the digest's
byte length plus one. -/
theorem hash_buffer_null_terminated (f : HashFn) (st : AllParams)
    (password saltRaw : Bytes) (secret : Option Bytes) (buf : Bytes) (size : Nat)
    (h : hash f st password saltRaw secret = some (buf, size)) :
    ∃ d, hashDigestString f st password saltRaw secret = some d ∧
      buf = d ++ [0] ∧ size = d.length + 1 := by
  unfold hash at h
  cases hd : hashDigestString f st password saltRaw secret with
  | none =>
      rw [hd] at h
      exact Option.noConfusion h
  | some d =>
      rw [hd] at h
      cases h
      exact ⟨d, rfl, rfl, by simp⟩

/-- Concrete hash function instance used by the C6 witness. -/
def hashWitF : HashFn := fun _ _ _ _ _ _ _ _ n => some (List.replicate n 0)

/-- The concrete buffer and size the C6 witness inspects. -/
def hashWitBuf : Bytes × Nat :=
  (hash hashWitF PARAMS_default [97] (List.replicate 16 66) none).getD ([], 0)

theorem hash_buffer_null_terminated_witness :
    ∃ d, hashDigestString hashWitF PARAMS_default [97] (List.replicate 16 66) none = some d ∧
      hashWitBuf.1 = d ++ [0] ∧ hashWitBuf.2 = d.length + 1 :=
  hash_buffer_null_terminated hashWitF PARAMS_default [97] (List.replicate 16 66) none
    hashWitBuf.1 hashWitBuf.2 (by decide)

theorem generate_agree (f g : HashFn) (alg : Algorithm) (ver : Version) (q : ParamsR)
    (hq : q.output_len = none) (password saltStr : Bytes) (secret : Option Bytes)
    (hagree : f alg ver q.m_cost q.t_cost q.p_cost password saltStr secret DEFAULT_OUTPUT_LEN =
      g alg ver q.m_cost q.t_cost q.p_cost password saltStr secret DEFAULT_OUTPUT_LEN) :
    generate f alg ver q password saltStr secret = generate g alg ver q password saltStr secret := by
  unfold generate
  rw [hq, Option.getD_none, hagree]

/-- C7: `hash` builds the library parameters from the store forwarding
only the memory, time and parallelism costs with no output-length value
(so the parameters carry `None` and the effective output length is the
library default): the result of `hash` only depends on the key
derivation function's behaviour at `DEFAULT_OUTPUT_LEN`. -/
theorem hash_forwards_only_costs (f g : HashFn) (st : AllParams)
    (password saltRaw : Bytes) (secret : Option Bytes)
    (hagree : ∀ alg ver m t p pw s sec,
      f alg ver m t p pw s sec DEFAULT_OUTPUT_LEN = g alg ver m t p pw s sec DEFAULT_OUTPUT_LEN) :
    hash f st password saltRaw secret = hash g st password saltRaw secret ∧
      ∀ q, hashParams st = some q → q = ⟨st.m_cost, st.t_cost, st.p_cost, none⟩ := by
  constructor
  · unfold hash hashDigestString
    cases hs : saltFromB64 (b64EncodeNoPad saltRaw) with
    | none => rfl
    | some salt =>
        cases hq : hashParams st with
        | none => rfl
        | some q =>
            have hq1 : paramsNew st.m_cost st.t_cost st.p_cost none = some q := hq
            obtain ⟨_, hq2⟩ := paramsNew_eq hq1
            have hout : q.output_len = none := by rw [hq2]
            have hgen := generate_agree f g st.algorithm st.version q hout password salt secret
              (hagree st.algorithm st.version q.m_cost q.t_cost q.p_cost password salt secret)
            dsimp only
            rw [hgen]
  · intro q hq
    exact (paramsNew_eq (show paramsNew st.m_cost st.t_cost st.p_cost none = some q from hq)).2

/-- Concrete hash function instances used by the C7 witness: they agree
at the default output length and differ elsewhere. -/
def costsWitF : HashFn := fun _ _ _ _ _ _ _ _ n => some (List.replicate n 1)

/-- Second instance for the C7 witness. -/
def costsWitG : HashFn :=
  fun _ _ _ _ _ _ _ _ n => if n = DEFAULT_OUTPUT_LEN then some (List.replicate n 1) else none

theorem hash_forwards_only_costs_witness :
    hash costsWitF PARAMS_default [97] (List.replicate 16 66) none =
        hash costsWitG PARAMS_default [97] (List.replicate 16 66) none ∧
      ∀ q, hashParams PARAMS_default = some q →
        q = ⟨PARAMS_default.m_cost, PARAMS_default.t_cost, PARAMS_default.p_cost, none⟩ :=
  hash_forwards_only_costs costsWitF costsWitG PARAMS_default [97] (List.replicate 16 66) none
    (by
      intro alg ver m t p pw s sec
      simp [costsWitF, costsWitG])

theorem reachable_store_invariant_witness :
    (PARAMS_default.algorithm = Algorithm.argon2i ∨
        PARAMS_default.algorithm = Algorithm.argon2d ∨
        PARAMS_default.algorithm = Algorithm.argon2id) ∧
      (PARAMS_default.version = Version.v0x10 ∨ PARAMS_default.version = Version.v0x13) ∧
      paramsBuild PARAMS_default.m_cost PARAMS_default.t_cost PARAMS_default.p_cost =
        some (PARAMS_default.m_cost, PARAMS_default.t_cost, PARAMS_default.p_cost) ∧
      hashParams PARAMS_default ≠ none :=
  reachable_store_invariant PARAMS_default ReachableStore.init

end Xenon
